import Mathlib

/-!
Verification development for the `physical-ai-books` repository: a Docusaurus
textbook frontend with a chat widget, an API client for a RAG backend, and a
RAG pipeline (chunker, vector index wrapper, orchestrator, ingestion job)
described by the specification.

The frontend JavaScript (`frontend/src/utils/api.js`, the `Chatbot` component
in `frontend/src/components/Chatbot.js`) is embedded directly from the source.
The backend Python is not part of the source tree; its components are modelled
from the specification where a claim needs them, and each such definition says
so in its doc comment.
-/

namespace PhysicalAIBooks

/-! ## JSON values and HTTP requests

A small model of the JSON values the API client builds and receives, and of
the HTTP requests it sends.  An object is a list of key/value pairs, in the
order the source writes them, so "the body contains exactly these fields" is
expressible. -/

inductive JsonVal where
  | null : JsonVal
  | bool (b : Bool) : JsonVal
  | str (s : String) : JsonVal
  | num (n : Int) : JsonVal
  | obj (fields : List (String × JsonVal)) : JsonVal
deriving Repr

/-- JavaScript serializes a nullable string argument as either a JSON string
or JSON `null`. -/
def jsonOfOptStr : Option String → JsonVal
  | none => JsonVal.null
  | some s => JsonVal.str s

/-- First value bound to key `k` in a JSON object's field list. -/
def lookupField (kvs : List (String × JsonVal)) (k : String) : Option JsonVal :=
  match kvs with
  | [] => none
  | (k', v) :: rest => if k' = k then some v else lookupField rest k

structure HttpRequest where
  method : String
  path : String
  body : List (String × JsonVal)

/-! ## API client (`frontend/src/utils/api.js`) -/

/-- The JSON body built by `queryChatbot` (api.js lines 52–57):
`{ query, chapter, selected_text: selectedText, stream: false }`. -/
def chatRequestBody (query : String) (chapter selectedText : Option String) :
    List (String × JsonVal) :=
  [("query", JsonVal.str query),
   ("chapter", jsonOfOptStr chapter),
   ("selected_text", jsonOfOptStr selectedText),
   ("stream", JsonVal.bool false)]

/-- The request `queryChatbot` sends (api.js lines 47–58): a POST to `/chat`
with the body above. -/
def queryChatbotRequest (query : String) (chapter selectedText : Option String) :
    HttpRequest :=
  { method := "POST", path := "/chat",
    body := chatRequestBody query chapter selectedText }

/-- The `Chatbot` widget submits a query with `queryChatbot(query)` only
(Chatbot.js `handleSubmit`, index.js line 620), so both optional arguments
take their declared defaults of `null` (api.js line 45). -/
def widgetChatRequest (query : String) : HttpRequest :=
  queryChatbotRequest query none none

/-! ## Response handling in the API client

`fetch` either fails at the network level or yields a response with an `ok`
flag and a body; `response.json()` succeeds exactly when the body parses as
JSON, modelled by `body : Option JsonVal`. -/

inductive FetchOutcome where
  | networkError : FetchOutcome
  | response (ok : Bool) (body : Option JsonVal) : FetchOutcome

inductive ClientError where
  | network : ClientError
  | parseFailure : ClientError
  | appError (message : String) : ClientError
deriving Repr

/-- `errorData.message || defaultMsg` (api.js lines 61–62 and 89–90): the
`message` field is used when it is a truthy string, otherwise the default. -/
def errorMessageOf (j : JsonVal) (defaultMsg : String) : String :=
  match j with
  | JsonVal.obj kvs =>
    match lookupField kvs "message" with
    | some (JsonVal.str s) => if s = "" then defaultMsg else s
    | _ => defaultMsg
  | _ => defaultMsg

/-- Shared response handling of `queryChatbot` and `submitFeedback`
(api.js lines 60–65 and 88–93): on a non-ok status the error body is parsed
and an `Error` is thrown with its `message` (or a default); a normal value is
returned only for an ok response whose body parses as JSON.  When
`response.json()` itself fails, that parse error propagates. -/
def handleClientResponse (defaultMsg : String) : FetchOutcome → Except ClientError JsonVal
  | FetchOutcome.networkError => Except.error ClientError.network
  | FetchOutcome.response ok body =>
    if ok then
      match body with
      | some j => Except.ok j
      | none => Except.error ClientError.parseFailure
    else
      match body with
      | some j => Except.error (ClientError.appError (errorMessageOf j defaultMsg))
      | none => Except.error ClientError.parseFailure

/-- `queryChatbot`'s handling of the fetch outcome (api.js lines 45–70). -/
def queryChatbotResult : FetchOutcome → Except ClientError JsonVal :=
  handleClientResponse "Failed to get response from chatbot"

/-- `submitFeedback`'s handling of the fetch outcome (api.js lines 78–98). -/
def submitFeedbackResult : FetchOutcome → Except ClientError JsonVal :=
  handleClientResponse "Failed to submit feedback"

/-- `checkHealth` (api.js lines 104–112): `await fetch(...)` then
`response.json()`, with no inspection of `response.ok`. -/
def checkHealthResult : FetchOutcome → Except ClientError JsonVal
  | FetchOutcome.networkError => Except.error ClientError.network
  | FetchOutcome.response _ body =>
    match body with
    | some j => Except.ok j
    | none => Except.error ClientError.parseFailure

/-! ## Chat widget state (`frontend/src/components/Chatbot.js`)

A message in the widget's `messages` state.  User/greeting messages carry no
`messageId` and bot answers carry the backend's id (Chatbot.js lines 608–630);
`feedback` starts absent and is set by `handleFeedback`. -/

structure ChatMessage where
  type : String
  content : String
  sources : List (String × String × String)
  confidence : Option Rat
  messageId : Option String
  feedback : Option String
  timestamp : Nat
deriving Repr, DecidableEq

/-- The state update `handleFeedback` performs after `submitFeedback`
succeeds (Chatbot.js lines 652–656): map over the messages, replacing the
`feedback` field of each message whose `messageId` matches. -/
def applyFeedback (messageId feedbackType : String) (msgs : List ChatMessage) :
    List ChatMessage :=
  msgs.map fun msg =>
    if msg.messageId = some messageId then { msg with feedback := some feedbackType }
    else msg

/-! ## Content Chunker (backend, modelled from the spec) -/

/-- Fuel-indexed worker for `chunk`; the fuel only bounds the recursion depth
and `chunk` always supplies enough of it. -/
def chunkAux (fuel : Nat) (text : List Char) (maxSize overlap : Nat) :
    List (List Char) :=
  match fuel with
  | 0 => []
  | Nat.succ fuel' =>
    if text = [] then []
    else if text.length ≤ maxSize then [text]
    else text.take maxSize :: chunkAux fuel' (text.drop (maxSize - overlap)) maxSize overlap

/-- Modelled from the spec: the backend Content Chunker
(`chunk(document_text, max_chunk_size, overlap_size)`, §4.1), whose Python
source is not in the source tree.  An empty document yields an empty
sequence; a document within the size budget is a single chunk; otherwise a
chunk of `maxSize` characters is emitted and chunking resumes `overlap`
characters before its end, so consecutive chunks share `overlap` characters.
The configuration `overlap < maxSize` is validated at startup per the spec;
sentence-boundary preference and section labels are presentation details the
claims do not touch. -/
def chunk (text : List Char) (maxSize overlap : Nat) : List (List Char) :=
  chunkAux text.length text maxSize overlap

/-- The first chunk of a nonempty document is its first `maxSize` characters
(the whole document when it is shorter). -/
theorem chunkAux_head (fuel maxSize overlap : Nat) (t : List Char) (hne : t ≠ []) :
    (chunkAux (fuel + 1) t maxSize overlap)[0]? = some (t.take maxSize) := by
  by_cases hlen : t.length ≤ maxSize
  · simp [chunkAux, hne, hlen, List.take_of_length_le hlen]
  · simp [chunkAux, hne, hlen]

/-- Adjacent chunks produced by `chunkAux` share `overlap` characters, for
any sufficient fuel and valid configuration. -/
theorem chunkAux_adjacent_overlap (maxSize overlap : Nat) (hconfig : overlap < maxSize) :
    ∀ (fuel : Nat) (text : List Char), text.length ≤ fuel →
      ∀ (i : Nat) (a b : List Char),
        (chunkAux fuel text maxSize overlap)[i]? = some a →
        (chunkAux fuel text maxSize overlap)[i + 1]? = some b →
        a.drop (a.length - overlap) = b.take overlap := by
  intro fuel
  induction fuel with
  | zero =>
    intro text _ i a b ha _
    simp [chunkAux] at ha
  | succ fuel' ih =>
    intro text hfuel i a b ha hb
    by_cases hne : text = []
    · simp [chunkAux, hne] at ha
    · by_cases hlen : text.length ≤ maxSize
      · simp [chunkAux, hne, hlen] at hb
      · push_neg at hlen
        have hrest : (text.drop (maxSize - overlap)).length ≤ fuel' := by
          rw [List.length_drop]; omega
        simp only [chunkAux, if_neg hne, if_neg (by omega : ¬ text.length ≤ maxSize)] at ha hb
        cases i with
        | zero =>
          -- `a` is the first chunk, `b` the head of the recursive call.
          simp only [List.getElem?_cons_zero, Option.some.injEq] at ha
          simp only [List.getElem?_cons_succ] at hb
          have hrest_ne : text.drop (maxSize - overlap) ≠ [] := by
            intro hnil
            have := congrArg List.length hnil
            rw [List.length_drop] at this
            simp at this
            omega
          have hrest_fuel : 1 ≤ fuel' := by
            have : 1 ≤ (text.drop (maxSize - overlap)).length := by
              rw [List.length_drop]; omega
            omega
          obtain ⟨fuel'', rfl⟩ : ∃ k, fuel' = k + 1 := ⟨fuel' - 1, by omega⟩
          rw [chunkAux_head fuel'' maxSize overlap _ hrest_ne, Option.some.injEq] at hb
          subst ha
          subst hb
          have hone : (text.take maxSize).length = maxSize := by
            rw [List.length_take]; omega
          rw [hone, List.drop_take, List.take_take]
          congr 1
          omega
        | succ i' =>
          simp only [List.getElem?_cons_succ] at ha hb
          exact ih (text.drop (maxSize - overlap)) hrest i' a b ha hb

/-! ## Vector Index search (backend, modelled from the spec)

Similarity scores are rationals; the similarity computation itself is owned
by the external vector store (spec non-goal), so `search` receives each
stored payload already annotated with its score against the query vector. -/

/-- Entries ordered by descending similarity score. -/
def scoreGE {α : Type} (a b : α × Rat) : Prop := b.2 ≤ a.2

instance {α : Type} : DecidableRel (scoreGE (α := α)) := fun a b =>
  inferInstanceAs (Decidable (b.2 ≤ a.2))

instance {α : Type} : IsTotal (α × Rat) scoreGE :=
  ⟨fun a b => le_total b.2 a.2⟩

instance {α : Type} : IsTrans (α × Rat) scoreGE :=
  ⟨fun _ _ _ h1 h2 => le_trans h2 h1⟩

/-- Modelled from the spec: the Vector Index wrapper's
`search(query_vector, top_k, min_score)` (§4.3), whose Python source is not
in the source tree.  Among the stored records scored against the query, it
keeps those with score ≥ `min_score`, orders them by descending score, and
returns at most `top_k` of them; nothing clearing the threshold yields the
empty sequence, not an error. -/
def search {α : Type} (scored : List (α × Rat)) (topK : Nat) (minScore : Rat) :
    List (α × Rat) :=
  (List.insertionSort scoreGE (scored.filter fun r => minScore ≤ r.2)).take topK

/-! ## RAG Orchestrator (backend, modelled from the spec) -/

/-- A source citation: chapter, section label, quoted excerpt (spec §3). -/
structure Source where
  chapter : String
  sectionLabel : String
  quote : String
deriving Repr, DecidableEq

/-- The external calls the orchestrator can make during one query, recorded
as a trace. -/
inductive ExtCall where
  | embed (text : String) : ExtCall
  | vectorSearch (text : String) : ExtCall
  | completion (systemPrompt userPrompt : String) : ExtCall
  | persist : ExtCall
deriving Repr, DecidableEq

def ExtCall.isCompletion : ExtCall → Bool
  | ExtCall.completion _ _ => true
  | _ => false

structure QueryResult where
  answer : String
  sources : List Source
  confidence : Rat
deriving Repr

/-- The fixed fallback answer returned when retrieval finds nothing. -/
def noRelevantContentAnswer : String :=
  "No relevant content found in the textbook for this question."

/-- Step 1 of the orchestrator algorithm (spec §4.5): selected text, when
provided, is concatenated before the question. -/
def effectiveSearchText (question : String) (selectedText : Option String) : String :=
  match selectedText with
  | some s => s ++ "\n\n" ++ question
  | none => question

/-- The system instruction constraining the model to the supplied context
(spec §4.5 step 5). -/
def systemInstruction : String :=
  "Answer only from the supplied textbook context."

/-- Step 5: concatenated chunk texts, each tagged with its source/section,
followed by the original question. -/
def buildPrompt (retrieved : List (Source × Rat)) (question : String) : String :=
  String.intercalate "\n\n"
    (retrieved.map fun r =>
      "[" ++ r.1.chapter ++ " / " ++ r.1.sectionLabel ++ "] " ++ r.1.quote) ++
  "\n\nQuestion: " ++ question

/-- Top similarity score of the retrieved context (it arrives sorted
descending, so this is its head). -/
def topScore (retrieved : List (Source × Rat)) : Rat :=
  (retrieved.head?.map Prod.snd).getD 0

/-- Modelled from the spec: the RAG Orchestrator's
`query(question, chapter_filter?, selected_text?)` (§4.5), whose Python
source is not in the source tree.  `retrieve` abstracts steps 2–3 (embedding
the effective search text, then vector search with the configured `top_k`
and `min_score`); `generate` abstracts the Completion Client.  The returned
trace lists the external calls made: when the retrieved context is empty the
orchestrator skips generation (and persistence) and returns the fixed
fallback answer with confidence 0; otherwise it generates, takes
`min(top_score, 1)` as confidence, and persists a chat message. -/
def ragQuery (retrieve : String → List (Source × Rat))
    (generate : String → String → String)
    (question : String) (selectedText : Option String) :
    QueryResult × List ExtCall :=
  let searchText := effectiveSearchText question selectedText
  let retrieved := retrieve searchText
  if retrieved = [] then
    ({ answer := noRelevantContentAnswer, sources := [], confidence := 0 },
     [ExtCall.embed searchText, ExtCall.vectorSearch searchText])
  else
    let prompt := buildPrompt retrieved question
    ({ answer := generate systemInstruction prompt,
       sources := retrieved.map Prod.fst,
       confidence := min (topScore retrieved) 1 },
     [ExtCall.embed searchText, ExtCall.vectorSearch searchText,
      ExtCall.completion systemInstruction prompt, ExtCall.persist])

/-! ## Vector Index upsert and the Ingestion Job (backend, modelled from the
spec) -/

/-- An Embedding Record: the chunk's vector plus its payload (spec §3). -/
structure EmbRecord where
  vector : List Rat
  source : String
  text : List Char
  seq : Nat
deriving Repr, DecidableEq

/-- Modelled from the spec: the deterministic upsert key derived from source
and sequence (§4.6). -/
def chunkId (source : String) (seq : Nat) : String :=
  source ++ "-" ++ toString seq

/-- Whether the index holds a record under `id`. -/
def hasKey (idx : List (String × EmbRecord)) (id : String) : Bool :=
  idx.any fun p => p.1 = id

/-- Modelled from the spec: the Vector Index `upsert`, idempotent by the
caller-supplied id (§4.3): an existing record under the id is replaced in
place, otherwise the record is appended. -/
def upsert (idx : List (String × EmbRecord)) (id : String) (rec : EmbRecord) :
    List (String × EmbRecord) :=
  if hasKey idx id then
    idx.map fun p => if p.1 = id then (id, rec) else p
  else idx ++ [(id, rec)]

/-- Upsert a batch of keyed records in order. -/
def upsertAll (idx : List (String × EmbRecord))
    (recs : List (String × EmbRecord)) : List (String × EmbRecord) :=
  recs.foldl (fun acc pr => upsert acc pr.1 pr.2) idx

/-- Chunking configuration from the spec (§3: chunk text bounded by 1000
characters; §8 scenario 3: overlap 200). -/
def maxChunkSize : Nat := 1000

def overlapSize : Nat := 200

/-- Modelled from the spec: the keyed records one Ingestion Job run produces
(§4.6) — every document chunked, every chunk embedded and keyed by its
deterministic `chunkId`. -/
def ingestRecords (embedFn : List Char → List Rat)
    (docs : List (String × List Char)) : List (String × EmbRecord) :=
  docs.flatMap fun d =>
    (chunk d.2 maxChunkSize overlapSize).enum.map fun ic =>
      (chunkId d.1 ic.1,
       { vector := embedFn ic.2, source := d.1, text := ic.2, seq := ic.1 })

/-- Modelled from the spec: one Ingestion Job run (§4.6), upserting every
produced record into the Vector Index. -/
def ingest (embedFn : List Char → List Rat) (idx : List (String × EmbRecord))
    (docs : List (String × List Char)) : List (String × EmbRecord) :=
  upsertAll idx (ingestRecords embedFn docs)

/-- Replacing a record in place never changes which keys are present. -/
theorem hasKey_replace (idx : List (String × EmbRecord)) (id id' : String)
    (rec : EmbRecord) :
    hasKey (idx.map fun p => if p.1 = id then (id, rec) else p) id' = hasKey idx id' := by
  unfold hasKey
  rw [List.any_map]
  have hfun : ((fun p : String × EmbRecord => decide (p.1 = id')) ∘
      fun p => if p.1 = id then (id, rec) else p) =
      fun p : String × EmbRecord => decide (p.1 = id') := by
    funext p
    by_cases h : p.1 = id <;> simp [Function.comp, h]
  rw [hfun]

/-- `upsert` preserves the index size on a present key and grows it by one on
an absent key. -/
theorem length_upsert (idx : List (String × EmbRecord)) (id : String) (rec : EmbRecord) :
    (upsert idx id rec).length =
      if hasKey idx id then idx.length else idx.length + 1 := by
  unfold upsert
  by_cases h : hasKey idx id <;> simp [h]

/-- Keys present before an `upsert` are present after it. -/
theorem hasKey_upsert_mono (idx : List (String × EmbRecord)) (id id' : String)
    (rec : EmbRecord) (h : hasKey idx id' = true) :
    hasKey (upsert idx id rec) id' = true := by
  unfold upsert
  by_cases hid : hasKey idx id
  · rw [if_pos hid, hasKey_replace]
    exact h
  · rw [if_neg hid]
    unfold hasKey at h ⊢
    rw [List.any_append, h]
    rfl

/-- After an `upsert` the upserted key is present. -/
theorem hasKey_upsert_self (idx : List (String × EmbRecord)) (id : String)
    (rec : EmbRecord) : hasKey (upsert idx id rec) id = true := by
  unfold upsert
  by_cases hid : hasKey idx id
  · rw [if_pos hid, hasKey_replace]
    exact hid
  · rw [if_neg hid]
    unfold hasKey
    rw [List.any_append]
    simp

/-- Keys present before a batch of upserts are present after it. -/
theorem hasKey_upsertAll_mono (recs : List (String × EmbRecord)) :
    ∀ (idx : List (String × EmbRecord)) (id : String), hasKey idx id = true →
      hasKey (upsertAll idx recs) id = true := by
  induction recs with
  | nil => intro idx id h; exact h
  | cons pr recs ih =>
    intro idx id h
    exact ih (upsert idx pr.1 pr.2) id (hasKey_upsert_mono idx pr.1 id pr.2 h)

/-- Every key of the batch is present after the batch of upserts. -/
theorem hasKey_upsertAll_of_mem (recs : List (String × EmbRecord)) :
    ∀ (idx : List (String × EmbRecord)) (pr : String × EmbRecord), pr ∈ recs →
      hasKey (upsertAll idx recs) pr.1 = true := by
  induction recs with
  | nil => intro idx pr hpr; cases hpr
  | cons qr recs ih =>
    intro idx pr hpr
    rcases List.mem_cons.mp hpr with h | h
    · subst h
      exact hasKey_upsertAll_mono recs (upsert idx pr.1 pr.2) pr.1
        (hasKey_upsert_self idx pr.1 pr.2)
    · exact ih (upsert idx qr.1 qr.2) pr h

/-- When every key of the batch is already present, the batch of upserts
leaves the index size unchanged. -/
theorem length_upsertAll_of_keys (recs : List (String × EmbRecord)) :
    ∀ (idx : List (String × EmbRecord)),
      (∀ pr ∈ recs, hasKey idx pr.1 = true) →
      (upsertAll idx recs).length = idx.length := by
  induction recs with
  | nil => intro idx _; rfl
  | cons pr recs ih =>
    intro idx hall
    have hpr : hasKey idx pr.1 = true := hall pr (List.mem_cons_self pr recs)
    have hlen : (upsert idx pr.1 pr.2).length = idx.length := by
      rw [length_upsert, if_pos hpr]
    calc (upsertAll idx (pr :: recs)).length
        = (upsertAll (upsert idx pr.1 pr.2) recs).length := rfl
      _ = (upsert idx pr.1 pr.2).length := by
          apply ih
          intro q hq
          exact hasKey_upsert_mono idx pr.1 q.1 pr.2 (hall q (List.mem_cons_of_mem pr hq))
      _ = idx.length := hlen

end PhysicalAIBooks

namespace PhysicalAIBooks

/-! ## Theorems about the API client -/

/-- C3: every `queryChatbot(query, chapter, selectedText)` call sends a POST
to `/chat` whose JSON body has exactly the fields `query`, `chapter`,
`selected_text` and `stream`, with `stream` always `false`. -/
theorem queryChatbot_request_shape (query : String) (chapter selectedText : Option String) :
    (queryChatbotRequest query chapter selectedText).method = "POST" ∧
    (queryChatbotRequest query chapter selectedText).path = "/chat" ∧
    ((queryChatbotRequest query chapter selectedText).body.map Prod.fst) =
      ["query", "chapter", "selected_text", "stream"] ∧
    lookupField (queryChatbotRequest query chapter selectedText).body "stream" =
      some (JsonVal.bool false) := by
  refine ⟨rfl, rfl, rfl, ?_⟩
  simp [queryChatbotRequest, chatRequestBody, lookupField]

/-- C10: the shipped `Chatbot` widget always invokes `queryChatbot` with only
the query argument, so the POST `/chat` body always carries
`chapter = null` and `selected_text = null`. -/
theorem widget_request_null_filters (query : String) :
    lookupField (widgetChatRequest query).body "chapter" = some JsonVal.null ∧
    lookupField (widgetChatRequest query).body "selected_text" = some JsonVal.null := by
  constructor <;>
    simp [widgetChatRequest, queryChatbotRequest, chatRequestBody, lookupField, jsonOfOptStr]

/-- Whether an API-client call resolved with a normal value. -/
def isOkResult : Except ClientError JsonVal → Bool
  | Except.ok _ => true
  | Except.error _ => false

/-- C8: for both `queryChatbot` and `submitFeedback`, a resolved fetch with a
non-ok status makes the client throw — using the error body's `message` field
when it is present (and truthy) — and never return the error payload as a
normal result; a normal return happens only for an ok response whose body
parses as JSON. -/
theorem client_non_ok_throws (body : Option JsonVal) (o : FetchOutcome) (j : JsonVal)
    (kvs : List (String × JsonVal)) (s : String) :
    isOkResult (queryChatbotResult (FetchOutcome.response false body)) = false ∧
    isOkResult (submitFeedbackResult (FetchOutcome.response false body)) = false ∧
    (lookupField kvs "message" = some (JsonVal.str s) → s ≠ "" →
      queryChatbotResult (FetchOutcome.response false (some (JsonVal.obj kvs))) =
        Except.error (ClientError.appError s) ∧
      submitFeedbackResult (FetchOutcome.response false (some (JsonVal.obj kvs))) =
        Except.error (ClientError.appError s)) ∧
    (queryChatbotResult o = Except.ok j → o = FetchOutcome.response true (some j)) ∧
    (submitFeedbackResult o = Except.ok j → o = FetchOutcome.response true (some j)) := by
  refine ⟨?_, ?_, ?_, ?_, ?_⟩
  · cases body <;> rfl
  · cases body <;> rfl
  · intro hmsg hs
    constructor <;>
      simp [queryChatbotResult, submitFeedbackResult, handleClientResponse,
        errorMessageOf, hmsg, hs]
  · rcases o with _ | ⟨ok, body'⟩
    · intro h; exact absurd h (by simp [queryChatbotResult, handleClientResponse])
    · cases ok
      · intro h
        exact absurd h (by cases body' <;>
          simp [queryChatbotResult, handleClientResponse])
      · cases body' with
        | none =>
          intro h
          exact absurd h (by simp [queryChatbotResult, handleClientResponse])
        | some j' =>
          intro h
          simp [queryChatbotResult, handleClientResponse] at h
          rw [h]
  · rcases o with _ | ⟨ok, body'⟩
    · intro h; exact absurd h (by simp [submitFeedbackResult, handleClientResponse])
    · cases ok
      · intro h
        exact absurd h (by cases body' <;>
          simp [submitFeedbackResult, handleClientResponse])
      · cases body' with
        | none =>
          intro h
          exact absurd h (by simp [submitFeedbackResult, handleClientResponse])
        | some j' =>
          intro h
          simp [submitFeedbackResult, handleClientResponse] at h
          rw [h]

/-- Witness for C8: the non-ok response `{"message": "boom"}` makes
`queryChatbot` throw an Error carrying that message. -/
theorem client_non_ok_throws_witness :
    queryChatbotResult
        (FetchOutcome.response false (some (JsonVal.obj [("message", JsonVal.str "boom")]))) =
      Except.error (ClientError.appError "boom") :=
  ((client_non_ok_throws (some (JsonVal.obj [("message", JsonVal.str "boom")]))
      (FetchOutcome.response true (some JsonVal.null)) JsonVal.null
      [("message", JsonVal.str "boom")] "boom").2.2.1
    (by simp [lookupField]) (by decide)).1

/-- C9: `checkHealth` never inspects the HTTP status: any response whose body
parses as JSON — 4xx and 5xx included — resolves with the parsed body, and it
throws only when the network request or JSON parsing fails; by contrast
`queryChatbot` rejects the same non-ok response. -/
theorem checkHealth_ignores_status (ok : Bool) (j : JsonVal) (o : FetchOutcome)
    (e : ClientError) :
    checkHealthResult (FetchOutcome.response ok (some j)) = Except.ok j ∧
    (checkHealthResult o = Except.error e →
      o = FetchOutcome.networkError ∨ ∃ b : Bool, o = FetchOutcome.response b none) ∧
    isOkResult (queryChatbotResult (FetchOutcome.response false (some j))) = false := by
  refine ⟨rfl, ?_, rfl⟩
  rcases o with _ | ⟨ok', body'⟩
  · intro _; exact Or.inl rfl
  · cases body' with
    | none => intro _; exact Or.inr ⟨ok', rfl⟩
    | some j' => intro h; exact absurd h (by simp [checkHealthResult])

/-- Witness for C9: a 500-style non-ok response with a JSON body resolves
through `checkHealth`, and a network error is indeed reported as one. -/
theorem checkHealth_ignores_status_witness :
    checkHealthResult (FetchOutcome.response false (some JsonVal.null)) =
      Except.ok JsonVal.null ∧
    (FetchOutcome.networkError = FetchOutcome.networkError ∨
      ∃ b : Bool, FetchOutcome.networkError = FetchOutcome.response b none) :=
  ⟨(checkHealth_ignores_status false JsonVal.null FetchOutcome.networkError
      ClientError.network).1,
   (checkHealth_ignores_status false JsonVal.null FetchOutcome.networkError
      ClientError.network).2.1 rfl⟩

/-- C4: after a successful feedback submission for a known message id, the
`handleFeedback` state update changes exactly the matching message — it keeps
all its other fields and gains the feedback — and leaves every message at any
other position unchanged. -/
theorem handleFeedback_updates_exactly_one (mid fb : String) (msgs : List ChatMessage)
    (i : Nat) (m : ChatMessage)
    (hm : msgs[i]? = some m) (hmid : m.messageId = some mid)
    (huniq : ∀ j m', msgs[j]? = some m' → m'.messageId = some mid → j = i) :
    (applyFeedback mid fb msgs)[i]? = some { m with feedback := some fb } ∧
    ∀ j, j ≠ i → (applyFeedback mid fb msgs)[j]? = msgs[j]? := by
  constructor
  · simp [applyFeedback, hm, hmid]
  · intro j hj
    simp only [applyFeedback, List.getElem?_map]
    cases h' : msgs[j]? with
    | none => rfl
    | some m' =>
      have hne : ¬ m'.messageId = some mid := fun hc => hj (huniq j m' h' hc)
      simp [hne]

/-- The widget's initial greeting message (Chatbot.js lines 572–578): a bot
message with no backend message id. -/
def greetingMsg : ChatMessage :=
  { type := "bot",
    content := "Hi! Ask me anything about the course content!",
    sources := [], confidence := none, messageId := none, feedback := none,
    timestamp := 0 }

/-- A bot answer message carrying a backend id, as built by `handleSubmit`
(Chatbot.js lines 623–630). -/
def answerMsg : ChatMessage :=
  { type := "bot",
    content := "Forward kinematics computes the end effector pose.",
    sources := [("week-2", "3.1", "Forward kinematics computes...")],
    confidence := some (9 / 10 : Rat), messageId := some "abc", feedback := none,
    timestamp := 1 }

/-- Witness for C4: feedback on the message with id `"abc"` updates exactly
that message and leaves the greeting untouched. -/
theorem handleFeedback_updates_exactly_one_witness :
    (applyFeedback "abc" "helpful" [greetingMsg, answerMsg])[1]? =
      some { answerMsg with feedback := some "helpful" } ∧
    ∀ j, j ≠ 1 → (applyFeedback "abc" "helpful" [greetingMsg, answerMsg])[j]? =
      [greetingMsg, answerMsg][j]? := by
  refine handleFeedback_updates_exactly_one "abc" "helpful" [greetingMsg, answerMsg] 1
    answerMsg rfl rfl ?_
  intro j m' h1 h2
  rcases j with _ | _ | j
  · simp at h1
    rw [← h1] at h2
    simp [greetingMsg] at h2
  · rfl
  · simp at h1

/-- C7: the Content Chunker maps the empty document to an empty sequence of
chunks, and does not raise an error. -/
theorem chunker_empty_document (maxSize overlap : Nat) :
    chunk [] maxSize overlap = [] := rfl

/-- C5: for every document and every pair of adjacent chunks `i` and `i + 1`
from the same source, the last `overlap` characters of chunk `i` equal the
first `overlap` characters of chunk `i + 1` (under the startup-validated
configuration `overlap < maxSize`; a chunk with a successor is never
truncated by the document end). -/
theorem chunker_overlap_invariant (text : List Char) (maxSize overlap : Nat)
    (hconfig : overlap < maxSize) (i : Nat) (a b : List Char)
    (ha : (chunk text maxSize overlap)[i]? = some a)
    (hb : (chunk text maxSize overlap)[i + 1]? = some b) :
    a.drop (a.length - overlap) = b.take overlap :=
  chunkAux_adjacent_overlap maxSize overlap hconfig text.length text le_rfl i a b ha hb

/-- Witness for C5: chunking `"abcdefgh"` with size 4 and overlap 2 yields
`["abcd", "cdef", "efgh"]`, and the first two chunks share `"cd"`. -/
theorem chunker_overlap_invariant_witness :
    (chunk ['a', 'b', 'c', 'd', 'e', 'f', 'g', 'h'] 4 2)[0]? =
      some ['a', 'b', 'c', 'd'] ∧
    List.drop (List.length ['a', 'b', 'c', 'd'] - 2) ['a', 'b', 'c', 'd'] =
      List.take 2 ['c', 'd', 'e', 'f'] :=
  ⟨by decide,
   chunker_overlap_invariant ['a', 'b', 'c', 'd', 'e', 'f', 'g', 'h'] 4 2 (by decide) 0
     ['a', 'b', 'c', 'd'] ['c', 'd', 'e', 'f'] (by decide) (by decide)⟩

/-- C2: every `search` call returns at most `topK` entries, each entry's
score is ≥ `minScore`, the entries are ordered by descending score, and when
no stored record clears the threshold the result is the empty sequence
rather than an error. -/
theorem search_contract {α : Type} (scored : List (α × Rat)) (topK : Nat)
    (minScore : Rat) :
    (search scored topK minScore).length ≤ topK ∧
    (∀ r ∈ search scored topK minScore, minScore ≤ r.2) ∧
    List.Sorted scoreGE (search scored topK minScore) ∧
    ((∀ r ∈ scored, r.2 < minScore) → search scored topK minScore = []) := by
  refine ⟨?_, ?_, ?_, ?_⟩
  · calc (search scored topK minScore).length
        ≤ topK ⊓ _ := le_of_eq (List.length_take _ _)
      _ ≤ topK := inf_le_left
  · intro r hr
    have hmem : r ∈ List.insertionSort scoreGE (scored.filter fun x => minScore ≤ x.2) :=
      List.mem_of_mem_take hr
    have hfil : r ∈ scored.filter fun x => minScore ≤ x.2 :=
      (List.perm_insertionSort scoreGE _).mem_iff.mp hmem
    have := List.of_mem_filter hfil
    exact of_decide_eq_true this
  · exact List.Pairwise.sublist (List.take_sublist _ _)
      (List.sorted_insertionSort scoreGE _)
  · intro hall
    have hfl : (scored.filter fun x => minScore ≤ x.2) = [] := by
      rw [List.filter_eq_nil_iff]
      intro r hr
      simp only [decide_eq_true_eq]
      exact not_le.mpr (hall r hr)
    simp [search, hfl]

/-- Witness for C2: searching three scored records with `top_k = 2` and
`min_score = 7/10` returns the two clearing entries in descending order, and
a corpus entirely below the threshold returns the empty sequence. -/
theorem search_contract_witness :
    (search [(1, (1 : Rat) / 2), (2, (9 : Rat) / 10), (3, (3 : Rat) / 4)] 2
        ((7 : Rat) / 10)).length ≤ 2 ∧
    search [((1 : Nat), (2 : Rat) / 5)] 5 ((7 : Rat) / 10) = [] :=
  ⟨(search_contract [(1, (1 : Rat) / 2), (2, (9 : Rat) / 10), (3, (3 : Rat) / 4)] 2
      ((7 : Rat) / 10)).1,
   (search_contract [((1 : Nat), (2 : Rat) / 5)] 5 ((7 : Rat) / 10)).2.2.2
     (by intro r hr; simp at hr; subst hr; norm_num)⟩

/-- C1: whenever retrieval returns an empty Retrieved Context, the RAG
Orchestrator's query operation does not call the Completion Client and
returns the fixed "no relevant content found" answer with confidence 0. -/
theorem orchestrator_empty_retrieval (retrieve : String → List (Source × Rat))
    (generate : String → String → String) (question : String)
    (selectedText : Option String)
    (hempty : retrieve (effectiveSearchText question selectedText) = []) :
    (ragQuery retrieve generate question selectedText).1.answer =
      noRelevantContentAnswer ∧
    (ragQuery retrieve generate question selectedText).1.confidence = 0 ∧
    ((ragQuery retrieve generate question selectedText).2.all
      fun c => !c.isCompletion) = true := by
  refine ⟨?_, ?_, ?_⟩ <;> simp [ragQuery, hempty, ExtCall.isCompletion]

/-- Witness for C1: a query against an empty corpus returns the fallback
answer with confidence 0 and a completion-free call trace. -/
theorem orchestrator_empty_retrieval_witness :
    (ragQuery (fun _ => []) (fun _ _ => "generated") "What is SLAM?" none).1.answer =
      noRelevantContentAnswer ∧
    (ragQuery (fun _ => []) (fun _ _ => "generated") "What is SLAM?" none).1.confidence = 0 ∧
    ((ragQuery (fun _ => []) (fun _ _ => "generated") "What is SLAM?" none).2.all
      fun c => !c.isCompletion) = true :=
  orchestrator_empty_retrieval (fun _ => []) (fun _ _ => "generated") "What is SLAM?"
    none rfl

/-- C6: running the Ingestion Job twice on unchanged content is idempotent:
the second run yields the same number of records in the Vector Index as the
first, because every record's upsert key is the deterministic id derived
from its source and sequence, so the second run only replaces records. -/
theorem ingestion_idempotent (embedFn : List Char → List Rat)
    (docs : List (String × List Char)) :
    (ingest embedFn (ingest embedFn [] docs) docs).length =
      (ingest embedFn [] docs).length := by
  unfold ingest
  apply length_upsertAll_of_keys
  intro pr hpr
  exact hasKey_upsertAll_of_mem (ingestRecords embedFn docs) [] pr hpr

end PhysicalAIBooks
